import Mathlib

/-!
# Verification of the MangaLens extension image pipeline

Shallow embedding of the image-acquisition and sequential-processing
pipeline of the MangaLens browser extension, together with proofs of the
behavioural properties claimed for it.

The embedding covers:
* the JavaScript string operations the code relies on (first-occurrence
  `String.replace`, `includes`, the specific regular-expression
  substitutions used for Pixiv URL canonicalization);
* the background fetch handlers (`FETCH_IMAGE`, `FETCH_IMAGE_OFFSCREEN`)
  with their URL-variant fallback chain;
* the offscreen decode/re-encode handler with its 10000 ms timeout and
  promise first-settle semantics;
* per-item OCR processing (`processImage`) of both content-script
  generations;
* the acquisition strategy chain (`extractImageData`);
* discovery admission (generic and Pixiv-specific) with the 200 pixel
  size floor;
* the overlay/click-toggle state of an image element; and
* an interleaving small-step model of the discovery queue, the drain
  loop and the navigation epoch.
-/

/- ### JavaScript string primitives -/

/-- JavaScript truthiness-based `a || b` on strings: the empty string is
falsy. -/
def jsOr (a b : String) : String := if a = "" then b else a

/-- JavaScript truthiness-based `a || b` on numbers: `0` is falsy.  Used
for `img.naturalWidth || img.width`. -/
def jsOrNat (a b : Nat) : Nat := if a = 0 then b else a

/-- Boolean list-prefix test. -/
def isPrefixL : List Char → List Char → Bool
  | [], _ => true
  | _ :: _, [] => false
  | a :: as, b :: bs => a = b && isPrefixL as bs

/-- Boolean list-infix test (substring search). -/
def isInfixL (pat : List Char) : List Char → Bool
  | [] => pat.isEmpty
  | c :: cs => isPrefixL pat (c :: cs) || isInfixL pat cs

/-- JavaScript `s.includes(pat)`. -/
def strIncludes (s pat : String) : Bool := isInfixL pat.data s.data

/-- Replace the first occurrence of `pat` by `repl`, leftmost match, as
JavaScript `String.prototype.replace` does with a string pattern. -/
def replaceFirstL (pat repl : List Char) : List Char → List Char
  | [] => if pat.isEmpty then repl else []
  | c :: cs =>
    if isPrefixL pat (c :: cs) then repl ++ (c :: cs).drop pat.length
    else c :: replaceFirstL pat repl cs

/-- JavaScript `s.replace(pat, repl)` for a plain-string pattern. -/
def jsReplaceFirst (s pat repl : String) : String :=
  ⟨replaceFirstL pat.data repl.data s.data⟩

/- ### The Pixiv URL regular-expression substitutions

`content.js` uses three regex replacements (no global flag, so only the
leftmost match is replaced):
* `/\/c\/\d+x\d+[^\/]*\//` → `'/'`   (strip the resize-proxy segment)
* `/_square\d+\./` → `'_master1200.'`
* `/_custom\d+\./` → `'_master1200.'`

Each pattern is deterministic (greedy matching never needs backtracking
for these patterns), so we implement them as direct matchers. -/

/-- Match `/c/\d+x\d+[^/]*\/` at the head of the list; on success return
the remainder after the match. -/
def matchCSeg : List Char → Option (List Char)
  | '/' :: 'c' :: '/' :: rest =>
    match rest.span Char.isDigit with
    | ([], _) => none
    | (_ :: _, r1) =>
      match r1 with
      | 'x' :: r2 =>
        match r2.span Char.isDigit with
        | ([], _) => none
        | (_ :: _, r3) =>
          match r3.dropWhile (fun c => c ≠ '/') with
          | '/' :: r4 => some r4
          | _ => none
      | _ => none
  | _ => none

/-- Match `_square\d+\.` at the head of the list. -/
def matchSquare : List Char → Option (List Char)
  | '_' :: 's' :: 'q' :: 'u' :: 'a' :: 'r' :: 'e' :: rest =>
    match rest.span Char.isDigit with
    | ([], _) => none
    | (_ :: _, r1) =>
      match r1 with
      | '.' :: r2 => some r2
      | _ => none
  | _ => none

/-- Match `_custom\d+\.` at the head of the list. -/
def matchCustom : List Char → Option (List Char)
  | '_' :: 'c' :: 'u' :: 's' :: 't' :: 'o' :: 'm' :: rest =>
    match rest.span Char.isDigit with
    | ([], _) => none
    | (_ :: _, r1) =>
      match r1 with
      | '.' :: r2 => some r2
      | _ => none
  | _ => none

/-- Leftmost-match single replacement: scan left to right, replace the
first position where the matcher succeeds; identity when no match. -/
def replaceMatchL (m : List Char → Option (List Char)) (repl : List Char) :
    List Char → List Char
  | [] =>
    match m [] with
    | some rest => repl ++ rest
    | none => []
  | c :: cs =>
    match m (c :: cs) with
    | some rest => repl ++ rest
    | none => c :: replaceMatchL m repl cs

/-- The replacement text `'_master1200.'`. -/
def masterRepl : List Char := String.data "_master1200."

/-- Pixiv thumbnail-to-original URL canonicalization, from
`handlePixivImages` / the Pixiv branch of `handleNewImage`
(`src/chome-extention/content.js`):
strip a `/c/<WxH>.../` resize segment when `'/c/'` occurs, then replace
`_square<digits>.` and `_custom<digits>.` by `_master1200.`. -/
def pixivOriginalSrc (src : String) : String :=
  let s1 : String :=
    if strIncludes src "/c/" then ⟨replaceMatchL matchCSeg ['/'] src.data⟩
    else src
  let s2 : String := ⟨replaceMatchL matchSquare masterRepl s1.data⟩
  ⟨replaceMatchL matchCustom masterRepl s2.data⟩

/- ### Background fetch handlers (src/background.js) -/

/-- The `credentials` mode of a fetch call. -/
inductive Cred where
  | omit
  | sameOrigin
deriving DecidableEq, Repr

/-- One fetch call as issued by the background handlers, recording the
request options used at the call site. -/
structure FetchCall where
  url : String
  credentials : Cred
  mode : String
  cache : String
deriving DecidableEq, Repr

/-- Every fetch in the `FETCH_IMAGE` / `FETCH_IMAGE_OFFSCREEN` handlers
of `src/background.js` is issued with
`{method:'GET', mode:'cors', credentials:'omit', cache:'no-cache'}`. -/
def mkCall (u : String) : FetchCall := ⟨u, Cred.omit, "cors", "no-cache"⟩

/-- Result of one network fetch attempt, as the handler observes it:
`err` covers both a thrown network error and a non-ok HTTP status (in
both cases `imageBlob` stays unset); `ok s` is an ok response whose blob
has `s` bytes. -/
inductive FetchResp where
  | err
  | ok (size : Nat)
deriving DecidableEq, Repr

/-- `_webp/` → `/`, `.webp` → `.jpg` variant URL (second attempt). -/
def jpgVariant (u : String) : String :=
  jsReplaceFirst (jsReplaceFirst u "_webp/" "/") ".webp" ".jpg"

/-- `_webp/` → `/`, `.webp` → `.png` variant URL (third attempt). -/
def pngVariant (u : String) : String :=
  jsReplaceFirst (jsReplaceFirst u "_webp/" "/") ".webp" ".png"

/-- One fetch attempt: sets the blob on an ok response (regardless of the
blob's size — a zero-byte blob is still a truthy object). -/
def fetchAttempt (oracle : String → FetchResp) (u : String) :
    Option (String × Nat) :=
  match oracle u with
  | .ok s => some (u, s)
  | .err => none

/-- The fetch stage of the `FETCH_IMAGE_OFFSCREEN` handler
(`src/background.js:41-105`): try the original URL; the JPG variant only
when no blob was obtained and the URL contains `'_webp/'`; then the PNG
variant under the same guard.  Returns the list of fetch calls issued (in
order) and the blob obtained, if any. -/
def offscreenFetchStage (oracle : String → FetchResp) (url : String) :
    List FetchCall × Option (String × Nat) :=
  let b1 := fetchAttempt oracle url
  if b1.isNone && strIncludes url "_webp/" then
    let b2 := fetchAttempt oracle (jpgVariant url)
    if b2.isNone then
      ([mkCall url, mkCall (jpgVariant url), mkCall (pngVariant url)],
        fetchAttempt oracle (pngVariant url))
    else ([mkCall url, mkCall (jpgVariant url)], b2)
  else ([mkCall url], b1)

/-- Final outcome of the fetch stage: the handler fails when no blob was
obtained or the obtained blob is empty
(`if (!imageBlob || imageBlob.size === 0)` at `src/background.js:107`). -/
def offscreenOutcome (oracle : String → FetchResp) (url : String) :
    Option (String × Nat) :=
  match (offscreenFetchStage oracle url).2 with
  | none => none
  | some (u, s) => if s = 0 then none else some (u, s)

/-- The single fetch call of the `FETCH_IMAGE` handler
(`src/background.js:145-190`). -/
def fetchImageCalls (url : String) : List FetchCall := [mkCall url]

/-- Modelled from the spec: the declarativeNetRequest rule set
(`rules.json`, referenced by the comment at `src/background.js:37` but
not present under `src/`) attaches the fixed referrer value required by
the hostile host to outgoing requests for that host. -/
def dnrReferer (url : String) : Option String :=
  if strIncludes url "pximg.net" then some "https://www.pixiv.net/" else none

/-- A request as it leaves the browser: the call-site options plus the
referrer attached by the declarativeNetRequest layer. -/
structure OutRequest where
  url : String
  credentials : Cred
  referer : Option String
deriving DecidableEq, Repr

/-- Combine a handler fetch call with the declarative referrer rule. -/
def effectiveRequest (c : FetchCall) : OutRequest :=
  ⟨c.url, c.credentials, dnrReferer c.url⟩

/-- The `Referer` header computed by the legacy background handler
(`src/unnamed/part_000`, FETCH_IMAGE): the fixed Pixiv value for
`pximg.net` URLs, otherwise `message.referer || message.url`. -/
def legacyFetchImageReferer (url referer : String) : String :=
  if strIncludes url "pximg.net" then "https://www.pixiv.net/"
  else jsOr referer url

/- ### Offscreen decode handler (src/unnamed/part_002, handleImageData) -/

/-- A settle attempt on the decode promise. -/
inductive SettleAttempt where
  | resolved (dataUrl : String)
  | rejected (msg : String)
deriving DecidableEq, Repr

/-- Promise settlement: the first settle attempt wins; all later resolve
or reject calls on an already-settled promise are ignored. -/
def settleRace (attempts : List SettleAttempt) : Option SettleAttempt :=
  attempts.foldl
    (fun acc a =>
      match acc with
      | some r => some r
      | none => some a)
    none

/-- Outcome of the canvas draw/re-encode inside `onload`: a data URL, or
a thrown error (caught and turned into a rejection). -/
inductive DrawResult where
  | ok (dataUrl : String)
  | threw (msg : String)
deriving DecidableEq, Repr

/-- What the image decode eventually does: the `onload` callback fires
and the canvas draw/re-encode either yields a data URL or throws, or the
`onerror` callback fires. -/
inductive DecodeEvent where
  | onload (draw : DrawResult)
  | onerror
deriving DecidableEq, Repr

/-- The settle attempt made by the decode callback. -/
def eventSettle : DecodeEvent → SettleAttempt
  | .onload (.ok d) => .resolved d
  | .onload (.threw m) => .rejected m
  | .onerror => .rejected "Failed to load image"

/-- Response of the offscreen `PROCESS_IMAGE_DATA` handler. -/
inductive OffscreenResult where
  | ok (dataUrl : String) (size : Nat)
  | fail (error : String)
deriving DecidableEq, Repr

/-- `handleImageData` (`src/unnamed/part_002:43-98`): a 10000 ms timer
rejects with `'Image load timeout'`; a decode completing earlier clears
the timer and settles first; a decode completing at or after the timer
settles second and is ignored.  The rejection is caught and converted to
a failure response. -/
def handleImageDataModel (decodeTime : Nat) (ev : DecodeEvent) :
    OffscreenResult :=
  let attempts :=
    if decodeTime < 10000 then [eventSettle ev]
    else [SettleAttempt.rejected "Image load timeout", eventSettle ev]
  match settleRace attempts with
  | some (.resolved d) => .ok d d.length
  | some (.rejected m) => .fail m
  | none => .fail "unreachable"

/- ### OCR response shape and per-item processing -/

/-- Axis-aligned bounding box of a detected text block. -/
structure BBox where
  x0 : Int
  y0 : Int
  x1 : Int
  y1 : Int
deriving DecidableEq, Repr

/-- A detected text block, as returned by the OCR endpoint. -/
structure TextBlock where
  text : String
  bbox : BBox
  type : String
  style : String
deriving DecidableEq, Repr

/-- The parsed OCR response body; `text_blocks` is `none` when the field
is absent from the JSON object. -/
structure OcrResponse where
  text_blocks : Option (List TextBlock)
deriving DecidableEq, Repr

/-- Result of one `processImage` run: the updated processed and failed
sets (insertion-ordered lists) and whether the overlay step was
invoked. -/
structure ItemOutcome where
  processed : List Nat
  failed : List Nat
  overlayInvoked : Bool
deriving DecidableEq, Repr

/-- `processImage` of `src/chome-extention/content.js:400-464`.
`pc0`, `pc1`, `pc2` are the values of `isPageChanging` at its three
check points (entry, after extraction, after the OCR call); `extract`
and `ocr` are the awaited results of `extractImageData` and
`sendToOCRServer`. -/
def processImageChome (pc0 pc1 pc2 : Bool) (extract : Option String)
    (ocr : Option OcrResponse) (e : Nat) (processed failed : List Nat) :
    ItemOutcome :=
  if pc0 then ⟨processed, failed, false⟩
  else if e ∈ processed then ⟨processed, failed, false⟩
  else
    let processed1 := processed ++ [e]
    if extract.isNone || pc1 then
      if pc1 then ⟨processed1, failed, false⟩
      else ⟨processed1, failed ++ [e], false⟩
    else if pc2 then ⟨processed1, failed, false⟩
    else
      match ocr with
      | none => ⟨processed1, failed ++ [e], false⟩
      | some r =>
        match r.text_blocks with
        | none => ⟨processed1, failed ++ [e], false⟩
        | some [] => ⟨processed1, failed, false⟩
        | some (_ :: _) => ⟨processed1, failed, true⟩

/-- `processImage` of the legacy generation (`src/content.js:119-164`).
It differs in two places: a missing extraction adds to the failed set
even during a page change, and an OCR response with an *empty*
`text_blocks` list is treated like a failed response
(`src/content.js:146-150`). -/
def processImageLegacy (pc0 pc1 pc2 : Bool) (extract : Option String)
    (ocr : Option OcrResponse) (e : Nat) (processed failed : List Nat) :
    ItemOutcome :=
  if pc0 then ⟨processed, failed, false⟩
  else if e ∈ processed then ⟨processed, failed, false⟩
  else
    let processed1 := processed ++ [e]
    if extract.isNone || pc1 then
      if extract.isNone then ⟨processed1, failed ++ [e], false⟩
      else ⟨processed1, failed, false⟩
    else if pc2 then ⟨processed1, failed, false⟩
    else
      match ocr with
      | none => ⟨processed1, failed ++ [e], false⟩
      | some r =>
        match r.text_blocks with
        | none => ⟨processed1, failed ++ [e], false⟩
        | some [] => ⟨processed1, failed ++ [e], false⟩
        | some (_ :: _) => ⟨processed1, failed, true⟩

/- ### Acquisition strategy chain (extractImageData) -/

/-- Response of a `chrome.runtime.sendMessage` fetch request, as the
content script sees it; `none` models a null/undefined response. -/
structure MsgResponse where
  success : Bool
  dataUrl : Option String
deriving DecidableEq, Repr

/-- The guard `response && response.success && response.dataUrl`
(truthiness of each part; an empty-string dataUrl is falsy). -/
def msgOkDataUrl : Option MsgResponse → Option String
  | some r =>
    if r.success then
      match r.dataUrl with
      | some d => if d = "" then none else some d
      | none => none
    else none
  | none => none

/-- Acquisition strategies, in the order `extractImageData` can attempt
them. -/
inductive Strategy where
  | offscreen
  | direct
  | bgFetch
deriving DecidableEq, Repr

/-- Source selection of `extractImageData`
(`src/chome-extention/content.js:478`):
`img.dataset.originalPixivSrc || img.currentSrc || img.src`. -/
def effSrc (dsPixiv : Option String) (currentSrc src : String) : String :=
  jsOr (dsPixiv.getD "") (jsOr currentSrc src)

/-- `extractImageData` of `src/chome-extention/content.js:472-612`,
returning the list of strategies attempted (in order) and the data URL
produced, if any.  `pc0`/`pc1` are `isPageChanging` at its two check
points; `nw`,`w`,`nh`,`h` are `naturalWidth`, `width`, `naturalHeight`,
`height`; the remaining parameters are the awaited results of the
offscreen relay message, the direct canvas draw, the background fetch
message, and the decode of the background-fetched data URL. -/
def extractImageDataChome (pc0 pc1 : Bool) (dsPixiv : Option String)
    (currentSrc src : String) (nw w nh h : Nat)
    (offResp : Option MsgResponse) (directRes : Option String)
    (bgResp : Option MsgResponse) (bgDecode : Option String) :
    List Strategy × Option String :=
  if pc0 then ([], none)
  else
    let s := effSrc dsPixiv currentSrc src
    if s = "" ∨ s = "about:blank" then ([], none)
    else if jsOrNat nw w < 200 ∨ jsOrNat nh h < 200 then ([], none)
    else if strIncludes s "pximg.net" then
      match msgOkDataUrl offResp with
      | some d => ([Strategy.offscreen], some d)
      | none => ([Strategy.offscreen, Strategy.direct], directRes)
    else
      match directRes with
      | some d => ([Strategy.direct], some d)
      | none =>
        if pc1 then ([Strategy.direct], none)
        else
          match msgOkDataUrl bgResp with
          | some _ => ([Strategy.direct, Strategy.bgFetch], bgDecode)
          | none => ([Strategy.direct, Strategy.bgFetch], none)

/- ### Discovery admission and the 200 pixel size floor -/

/-- The attributes of an image element that discovery inspects. -/
structure Img where
  naturalWidth : Nat
  naturalHeight : Nat
  width : Nat
  height : Nat
  complete : Bool
  src : String
  currentSrc : String
  dataSrc : Option String
  srcset : Option String
deriving DecidableEq, Repr

/-- Characters removed by a JavaScript-style trim (the whitespace forms
that occur in `srcset` attributes). -/
def isJsSpace (c : Char) : Bool :=
  c = ' ' || c = '\t' || c = '\n' || c = '\r'

/-- Trim leading and trailing whitespace from a character list. -/
def trimL (l : List Char) : List Char :=
  ((l.dropWhile isJsSpace).reverse.dropWhile isJsSpace).reverse

/-- Split a character list on a separator character, JavaScript
`String.prototype.split` style (always at least one field). -/
def splitOnCharL (c : Char) : List Char → List (List Char)
  | [] => [[]]
  | x :: xs =>
    let r := splitOnCharL c xs
    if x = c then [] :: r
    else
      match r with
      | [] => [[x]]
      | h :: t => (x :: h) :: t

/-- `srcset.split(',').map(s => s.trim().split(' ')[0])`. -/
def srcsetCandidates (ss : String) : List String :=
  (splitOnCharL ',' ss.data).map
    (fun l => ⟨(trimL l).takeWhile (fun c => c ≠ ' ')⟩)

/-- Source selection of the Pixiv discovery paths
(`src/chome-extention/content.js:132-141` and `218-227`):
`img.currentSrc || img.src || img.getAttribute('data-src')`, overridden
by the last `pximg.net` candidate of `srcset` when one exists. -/
def pixivPickSrc (img : Img) : String :=
  let base := jsOr img.currentSrc (jsOr img.src (img.dataSrc.getD ""))
  match img.srcset with
  | none => base
  | some ss =>
    let pix := (srcsetCandidates ss).filter (fun s => strIncludes s "pximg.net")
    match pix.getLast? with
    | some l => l
    | none => base

/-- Size gate of the generic branch of `handleNewImage`
(`src/chome-extention/content.js:194`): `naturalWidth > 200 &&
naturalHeight > 200`, with no layout-size fallback. -/
def handleNewImageGenericAdmit (img : Img) : Bool :=
  decide (200 < img.naturalWidth) && decide (200 < img.naturalHeight)

/-- Size gate of `queueAllImages`
(`src/chome-extention/content.js:310`): same as the generic
`handleNewImage` gate. -/
def queueAllImagesAdmit (img : Img) : Bool :=
  decide (200 < img.naturalWidth) && decide (200 < img.naturalHeight)

/-- The Pixiv discovery paths (`handlePixivImages` and the Pixiv branch
of `handleNewImage`): pick the source, require it to be a `pximg.net`
URL, take `naturalWidth || width` and `naturalHeight || height`, and on
admission record the canonicalized URL on the handle
(`img.dataset.originalPixivSrc`).  Returns the recorded URL when the
image is admitted. -/
def pixivDiscoveryAdmit (img : Img) : Option String :=
  let s := pixivPickSrc img
  if s = "" ∨ strIncludes s "pximg.net" = false then none
  else if 200 < jsOrNat img.naturalWidth img.width
      ∧ 200 < jsOrNat img.naturalHeight img.height then
    some (pixivOriginalSrc s)
  else none

/-- Admission gate of the legacy `queueAllImages`
(`src/content.js:37-68`): optional `pximg.net` host filter, then
`naturalWidth || width` / `naturalHeight || height` against the 200
floor. -/
def legacyQueueAllAdmit (isPixivHost : Bool) (img : Img) : Bool :=
  let src := jsOr img.currentSrc img.src
  if isPixivHost && !(strIncludes src "pximg.net") then false
  else
    decide (200 < jsOrNat img.naturalWidth img.width) &&
      decide (200 < jsOrNat img.naturalHeight img.height)

/- ### Overlay and click-to-toggle state (replaceTextInImage) -/

/-- The overlay-relevant state of an image element: its displayed
source, the three dataset entries, and the number of click listeners
registered by the overlay code. -/
structure Elem where
  src : String
  original : Option String
  translated : Option String
  showing : Option String
  listeners : Nat
deriving DecidableEq, Repr

/-- JavaScript falsiness of a dataset entry: absent, or present but
empty. -/
def datasetFalsy : Option String → Bool
  | none => true
  | some s => s = ""

/-- One overlay pass of `replaceTextInImage`
(`src/chome-extention/content.js:723-742`): when `dataset.original` is
falsy, record the current source and register the click listener; then
always update `dataset.translated`, `dataset.showing` and the displayed
source. -/
def overlayPass (newImageData : String) (e : Elem) : Elem :=
  let e1 :=
    if datasetFalsy e.original then
      { e with original := some e.src, listeners := e.listeners + 1 }
    else e
  { e1 with
      translated := some newImageData
      showing := some "translated"
      src := newImageData }

/-- One invocation of the registered click listener
(`src/chome-extention/content.js:729-737`). -/
def clickToggle (e : Elem) : Elem :=
  if e.showing = some "translated" then
    { e with src := e.original.getD "", showing := some "original" }
  else
    { e with src := e.translated.getD "", showing := some "translated" }

/- ### Interleaving model of discovery, queue drain and navigation

Concurrent invocations of `handleNewImage` (which suspends between its
duplicate guard and its admission), `processQueue` (the drain loop,
guarded by the `isProcessing` flag) and the navigation-change handlers
(`setupPageChangeDetection`) run interleaved on the page's single
logical thread.  Each constructor below is one synchronous segment of
the corresponding source function; a step that is not enabled in the
current state leaves the state unchanged. -/

/-- Execution phase of one invocation (admission invocations move
through `idle → checked → adDone`; drain invocations through
`notStarted → inLoop ↔ inFlight e → finished`). -/
inductive Phase where
  | idle
  | checked
  | adDone
  | notStarted
  | inLoop
  | inFlight (e : Nat)
  | finished
deriving DecidableEq, Repr

/-- The environment of a run: which image element each admission
invocation is handling, and which elements pass the load/size gate. -/
structure MXEnv where
  elt : Nat → Nat
  sizeOk : Nat → Bool

/-- The page-instance state: the three element sets (`observedImages`,
`processingQueue`, `processedImages`), the `isProcessing` and
`isPageChanging` flags, whether the discovery mutation observer is still
connected, the phase of every invocation, and a ghost trace `admitted`
of all queue pushes in order. -/
structure MXState where
  observed : List Nat
  queue : List Nat
  processed : List Nat
  admitted : List Nat
  isProcessing : Bool
  pageChanging : Bool
  observerConnected : Bool
  phase : Nat → Phase

/-- Update the phase of invocation `t`. -/
def setPhase (s : MXState) (t : Nat) (p : Phase) : MXState :=
  { s with phase := fun u => if u = t then p else s.phase u }

/-- `Set.add`: idempotent insertion (the observed set is a `Set`). -/
def pushSet (l : List Nat) (e : Nat) : List Nat :=
  if e ∈ l then l else l ++ [e]

/-- One synchronous segment of a source function:
* `hniCheck t` — the duplicate guard at the top of `handleNewImage`
  (`src/chome-extention/content.js:124`), reached only through the
  connected mutation observer;
* `hniAdmit t` — the post-await size check and admission
  (`content.js:170-201`), which does not re-check the guard;
* `hniAtomic t` — guard and admission with no suspension between them
  (the already-loaded-image case);
* `pqStart t` — the entry of `processQueue` (`content.js:366-368`);
* `pqPop t` — one iteration head of the drain loop: the loop condition,
  `shift()`, and the synchronous prefix of `processImage` up to and
  including the `processedImages.add` (`content.js:370-371, 400-410`);
* `pqFinish t` — completion of the awaited remainder of `processImage`;
* `trip` — a navigation-change handler (`content.js:323-359`). -/
inductive MXStep where
  | hniCheck (t : Nat)
  | hniAdmit (t : Nat)
  | hniAtomic (t : Nat)
  | pqStart (t : Nat)
  | pqPop (t : Nat)
  | pqFinish (t : Nat)
  | trip
deriving DecidableEq, Repr

/-- The admission effect shared by `hniAdmit` and `hniAtomic`:
`observedImages.add(img); processingQueue.push(img)` behind the size
gate. -/
def admitEffect (env : MXEnv) (s : MXState) (t : Nat) : MXState :=
  if env.sizeOk (env.elt t) then
    { setPhase s t .adDone with
        observed := pushSet s.observed (env.elt t)
        queue := s.queue ++ [env.elt t]
        admitted := s.admitted ++ [env.elt t] }
  else setPhase s t .adDone

/-- Whether a phase is an in-flight item. -/
def isInFlight : Phase → Bool
  | .inFlight _ => true
  | _ => false

/-- The small-step transition function. -/
def mxStep (env : MXEnv) (s : MXState) : MXStep → MXState
  | .hniCheck t =>
    if s.phase t = .idle ∧ s.observerConnected = true then
      if env.elt t ∈ s.observed ∨ env.elt t ∈ s.processed then
        setPhase s t .adDone
      else setPhase s t .checked
    else s
  | .hniAdmit t =>
    if s.phase t = .checked then admitEffect env s t else s
  | .hniAtomic t =>
    if s.phase t = .idle ∧ s.observerConnected = true then
      if env.elt t ∈ s.observed ∨ env.elt t ∈ s.processed then
        setPhase s t .adDone
      else admitEffect env (setPhase s t .checked) t
    else s
  | .pqStart t =>
    if s.phase t = .notStarted then
      if s.isProcessing = true ∨ s.queue = [] then setPhase s t .finished
      else { setPhase s t .inLoop with isProcessing := true }
    else s
  | .pqPop t =>
    if s.phase t = .inLoop then
      match s.queue with
      | [] => { setPhase s t .finished with isProcessing := false }
      | e :: rest =>
        if s.pageChanging = true then
          { setPhase s t .finished with isProcessing := false }
        else if e ∈ s.processed then { s with queue := rest }
        else
          { setPhase s t (.inFlight e) with
              queue := rest
              processed := s.processed ++ [e] }
    else s
  | .pqFinish t =>
    if isInFlight (s.phase t) then setPhase s t .inLoop else s
  | .trip =>
    { s with pageChanging := true, queue := [], observerConnected := false }

/-- The freshly injected page instance: empty sets, flags down, observer
connected; `roles` assigns each invocation its starting phase. -/
def mxInit (roles : Nat → Phase) : MXState :=
  ⟨[], [], [], [], false, false, true, roles⟩

/-- Run a schedule of steps from the initial state. -/
def mxRun (env : MXEnv) (roles : Nat → Phase) (steps : List MXStep) :
    MXState :=
  steps.foldl (mxStep env) (mxInit roles)

/-- An invocation is mid-drain (holding the worker role): inside the
loop or with an item in flight. -/
def isActive : Phase → Bool
  | .inLoop => true
  | .inFlight _ => true
  | _ => false

/-- Schedules whose admissions are never split across the load-wait
suspension use `hniAtomic` and never `hniCheck`. -/
def isCheckStep : MXStep → Bool
  | .hniCheck _ => true
  | _ => false

/- ### Helper lemmas -/

/-- A string containing `'pximg.net'` is not empty. -/
theorem includes_pximg_ne_empty (s : String)
    (h : strIncludes s "pximg.net" = true) : s ≠ "" := by
  intro heq
  rw [heq] at h
  exact absurd h (by decide)

/-- A string containing `'pximg.net'` is not `'about:blank'`. -/
theorem includes_pximg_ne_about_blank (s : String)
    (h : strIncludes s "pximg.net" = true) : s ≠ "about:blank" := by
  intro heq
  rw [heq] at h
  exact absurd h (by decide)

/-- Every fetch call issued by the `FETCH_IMAGE_OFFSCREEN` handler is
built by `mkCall`. -/
theorem offscreen_calls_shape (oracle : String → FetchResp) (url : String) :
    ∀ c ∈ (offscreenFetchStage oracle url).1, ∃ u, c = mkCall u := by
  intro c hc
  simp only [offscreenFetchStage] at hc
  split at hc
  · split at hc
    · simp only [List.mem_cons, List.mem_singleton, List.not_mem_nil] at hc
      rcases hc with h | h | h
      · exact ⟨_, h⟩
      · exact ⟨_, h⟩
      · rcases h with h | h
        · exact ⟨_, h⟩
        · exact absurd h (by simp)
    · simp only [List.mem_cons, List.mem_singleton] at hc
      rcases hc with h | h
      · exact ⟨_, h⟩
      · rcases h with h | h
        · exact ⟨_, h⟩
        · exact absurd h (by simp)
  · simp only [List.mem_singleton] at hc
    exact ⟨_, hc⟩

/- ### C1 — variant fallback of the FETCH_IMAGE_OFFSCREEN handler -/

/-- A `_webp/` URL on which the primary fetch returns an ok response
with an empty body while both variant URLs would return nine bytes. -/
def webpCexUrl : String := "https://i.pximg.net/img-master/_webp/1_p0.webp"

/-- Oracle for the counterexample: ok-but-empty on the original URL,
ok with bytes everywhere else. -/
def webpCexOracle : String → FetchResp :=
  fun u => if u = webpCexUrl then FetchResp.ok 0 else FetchResp.ok 9

/-- C1 counterexample: when the initial fetch of a `'_webp/'` URL
returns an HTTP-ok response with empty bytes, the handler issues no
variant fetch at all (only the original URL is fetched) and fails,
even though the JPG variant would have returned non-empty bytes — the
claim "if the initial fetch does not yield non-empty bytes, the
JPG-variant URL is attempted" and "fails only if all three attempts
produce empty or erroring responses" is false. -/
theorem webp_ok_empty_stops_fallback :
    (offscreenFetchStage webpCexOracle webpCexUrl).1 = [mkCall webpCexUrl]
    ∧ offscreenOutcome webpCexOracle webpCexUrl = none
    ∧ webpCexOracle (jpgVariant webpCexUrl) = FetchResp.ok 9 := by decide

/-- C1 amended: for a `'_webp/'` URL, the fallback triggers when the
initial fetch errors or returns a non-ok status (an ok response is
accepted without inspecting its size); the JPG variant is then attempted
before the PNG variant, the PNG variant only when the JPG attempt also
errors; the operation yields the bytes of the first ok response when
they are non-empty and fails otherwise. -/
theorem webp_fallback_on_error (oracle : String → FetchResp) (url : String)
    (hw : strIncludes url "_webp/" = true)
    (h1 : oracle url = FetchResp.err) :
    (offscreenFetchStage oracle url).1 =
      mkCall url :: mkCall (jpgVariant url) ::
        (match oracle (jpgVariant url) with
         | FetchResp.err => [mkCall (pngVariant url)]
         | FetchResp.ok _ => [])
    ∧ offscreenOutcome oracle url =
        (match oracle (jpgVariant url) with
         | FetchResp.ok s => if s = 0 then none else some (jpgVariant url, s)
         | FetchResp.err =>
           match oracle (pngVariant url) with
           | FetchResp.ok s => if s = 0 then none else some (pngVariant url, s)
           | FetchResp.err => none) := by
  cases h2 : oracle (jpgVariant url) with
  | err =>
    cases h3 : oracle (pngVariant url) with
    | err =>
      constructor
      · simp [offscreenFetchStage, fetchAttempt, h1, h2, hw]
      · simp [offscreenOutcome, offscreenFetchStage, fetchAttempt, h1, h2, h3, hw]
    | ok s =>
      constructor
      · simp [offscreenFetchStage, fetchAttempt, h1, h2, hw]
      · simp [offscreenOutcome, offscreenFetchStage, fetchAttempt, h1, h2, h3, hw]
  | ok s =>
    constructor
    · simp [offscreenFetchStage, fetchAttempt, h1, h2, hw]
    · simp [offscreenOutcome, offscreenFetchStage, fetchAttempt, h1, h2, hw]

/-- Concrete URL and oracle exercising the amended fallback theorem. -/
def webpWitUrl : String := "https://i.pximg.net/img-master/_webp/2_p0.webp"

/-- Witness oracle: the original URL errors, the variants succeed. -/
def webpWitOracle : String → FetchResp :=
  fun u => if u = webpWitUrl then FetchResp.err else FetchResp.ok 5

/-- Witness for the amended C1 theorem at a concrete URL and oracle. -/
theorem webp_fallback_on_error_witness :
    strIncludes webpWitUrl "_webp/" = true
    ∧ webpWitOracle webpWitUrl = FetchResp.err
    ∧ ((offscreenFetchStage webpWitOracle webpWitUrl).1 =
        mkCall webpWitUrl :: mkCall (jpgVariant webpWitUrl) ::
          (match webpWitOracle (jpgVariant webpWitUrl) with
           | FetchResp.err => [mkCall (pngVariant webpWitUrl)]
           | FetchResp.ok _ => [])
      ∧ offscreenOutcome webpWitOracle webpWitUrl =
          (match webpWitOracle (jpgVariant webpWitUrl) with
           | FetchResp.ok s => if s = 0 then none else some (jpgVariant webpWitUrl, s)
           | FetchResp.err =>
             match webpWitOracle (pngVariant webpWitUrl) with
             | FetchResp.ok s => if s = 0 then none else some (pngVariant webpWitUrl, s)
             | FetchResp.err => none)) :=
  ⟨by decide, by decide,
    webp_fallback_on_error webpWitOracle webpWitUrl (by decide) (by decide)⟩

/- ### C2 — empty text_blocks list -/

/-- C2 counterexample: in the legacy generation (`src/content.js:146-150`)
an OCR response whose `text_blocks` list is empty puts the item into the
*failed* set — the claim "the item ... is not added to the failed set"
is false for that generation (the item is still processed and no
overlay is invoked). -/
theorem legacy_empty_blocks_marked_failed :
    processImageLegacy false false false (some "data:image/png;base64,A")
        (some ⟨some []⟩) 5 [] []
      = ⟨[5], [5], false⟩ := by decide

/-- C2 amended: an OCR result with an empty `text_blocks` list leaves
the item in the processed set with no overlay invoked in both
generations; the current generation (`src/chome-extention/content.js`)
treats it as a benign skip (not added to the failed set), while the
legacy generation (`src/content.js`) additionally records it as
failed. -/
theorem empty_text_blocks_outcomes (d : String) (e : Nat)
    (pr fl : List Nat) (he : e ∉ pr) :
    processImageChome false false false (some d) (some ⟨some []⟩) e pr fl
      = ⟨pr ++ [e], fl, false⟩
    ∧ processImageLegacy false false false (some d) (some ⟨some []⟩) e pr fl
      = ⟨pr ++ [e], fl ++ [e], false⟩ := by
  constructor
  · simp [processImageChome, he]
  · simp [processImageLegacy, he]

/-- Witness for the amended C2 theorem at a concrete item. -/
theorem empty_text_blocks_outcomes_witness :
    (3 : Nat) ∉ ([] : List Nat)
    ∧ (processImageChome false false false (some "x") (some ⟨some []⟩) 3 [] []
        = ⟨[3], [], false⟩
      ∧ processImageLegacy false false false (some "x") (some ⟨some []⟩) 3 [] []
        = ⟨[3], [3], false⟩) :=
  ⟨by decide, by
    have h := empty_text_blocks_outcomes "x" 3 [] [] (by decide)
    simpa using h⟩

/- ### C7 — credentials omitted, fixed hostile-host referrer -/

/-- C7: every fetch issued by the `FETCH_IMAGE` and
`FETCH_IMAGE_OFFSCREEN` handlers of `src/background.js` carries
`credentials:'omit'`, and for a target URL on the hostile host the
effective request (after the declarativeNetRequest layer, modelled from
the spec) carries the fixed referrer `'https://www.pixiv.net/'`; the
legacy background handler (`src/unnamed/part_000`) computes the same
fixed referrer for hostile-host URLs directly. -/
theorem background_fetch_credentials_and_referer
    (oracle : String → FetchResp) (url referer : String) :
    (∀ c ∈ (offscreenFetchStage oracle url).1,
        c.credentials = Cred.omit
        ∧ (strIncludes c.url "pximg.net" = true →
            (effectiveRequest c).referer = some "https://www.pixiv.net/"))
    ∧ (∀ c ∈ fetchImageCalls url,
        c.credentials = Cred.omit
        ∧ (strIncludes c.url "pximg.net" = true →
            (effectiveRequest c).referer = some "https://www.pixiv.net/"))
    ∧ (strIncludes url "pximg.net" = true →
        legacyFetchImageReferer url referer = "https://www.pixiv.net/") := by
  have hm : ∀ u : String,
      (mkCall u).credentials = Cred.omit
      ∧ (strIncludes (mkCall u).url "pximg.net" = true →
          (effectiveRequest (mkCall u)).referer = some "https://www.pixiv.net/") := by
    intro u
    refine ⟨rfl, fun h => ?_⟩
    simp [effectiveRequest, dnrReferer, mkCall] at h ⊢
    simp [h]
  refine ⟨?_, ?_, ?_⟩
  · intro c hc
    obtain ⟨u, rfl⟩ := offscreen_calls_shape oracle url c hc
    exact hm u
  · intro c hc
    simp only [fetchImageCalls, List.mem_singleton] at hc
    subst hc
    exact hm url
  · intro h
    simp [legacyFetchImageReferer, h]

/-- Witness for C7 at a concrete oracle, URL and referer. -/
theorem background_fetch_credentials_and_referer_witness :
    (∀ c ∈ (offscreenFetchStage webpCexOracle webpCexUrl).1,
        c.credentials = Cred.omit
        ∧ (strIncludes c.url "pximg.net" = true →
            (effectiveRequest c).referer = some "https://www.pixiv.net/"))
    ∧ (∀ c ∈ fetchImageCalls webpCexUrl,
        c.credentials = Cred.omit
        ∧ (strIncludes c.url "pximg.net" = true →
            (effectiveRequest c).referer = some "https://www.pixiv.net/"))
    ∧ (strIncludes webpCexUrl "pximg.net" = true →
        legacyFetchImageReferer webpCexUrl "https://www.pixiv.net/artworks/1"
          = "https://www.pixiv.net/") :=
  background_fetch_credentials_and_referer webpCexOracle webpCexUrl
    "https://www.pixiv.net/artworks/1"

/- ### C8 — decode timeout and no post-timeout overwrite -/

/-- C8: a decode that has not completed within the 10000 ms timeout
yields the `'Image load timeout'` failure (DecodeTimeout), and the late
decode callback — whatever it does — cannot change the already-settled
result. -/
theorem decode_timeout_no_overwrite (t : Nat) (ev ev2 : DecodeEvent)
    (ht : 10000 ≤ t) :
    handleImageDataModel t ev = OffscreenResult.fail "Image load timeout"
    ∧ handleImageDataModel t ev = handleImageDataModel t ev2 := by
  have hlt : ¬ t < 10000 := by omega
  constructor
  · simp [handleImageDataModel, settleRace, hlt]
  · simp [handleImageDataModel, settleRace, hlt]

/-- Witness for C8: at exactly the timeout bound, a successfully
decoding late callback and a failing one produce the same timeout
failure. -/
theorem decode_timeout_no_overwrite_witness :
    (10000 : Nat) ≤ 10000
    ∧ (handleImageDataModel 10000 (DecodeEvent.onload (DrawResult.ok "data:image/png;base64,B"))
        = OffscreenResult.fail "Image load timeout"
      ∧ handleImageDataModel 10000 (DecodeEvent.onload (DrawResult.ok "data:image/png;base64,B"))
        = handleImageDataModel 10000 DecodeEvent.onerror) :=
  ⟨by decide,
    decode_timeout_no_overwrite 10000
      (DecodeEvent.onload (DrawResult.ok "data:image/png;base64,B"))
      DecodeEvent.onerror (by decide)⟩

/- ### C6 — Pixiv canonicalization and relay-first acquisition -/

/-- The spec's scenario-2 source URL (degraded `_square1200.` suffix). -/
def pixivSquareExampleSrc : String :=
  "https://i.pximg.net/img-original/img/2024/01/01/00/00/00/111_p0_square1200.jpg"

/-- Expected canonical URL for the scenario-2 source. -/
def pixivSquareExpected : String :=
  "https://i.pximg.net/img-original/img/2024/01/01/00/00/00/111_p0_master1200.jpg"

/-- A source with both a `/c/<WxH>/` resize segment and a
`_custom<digits>.` suffix. -/
def pixivCustomExampleSrc : String :=
  "https://i.pximg.net/c/360x360_70/img-master/img/2024/01/01/00/00/00/222_p0_custom1200.jpg"

/-- Expected canonical URL for the `/c/` + `_custom` source. -/
def pixivCustomExpected : String :=
  "https://i.pximg.net/img-master/img/2024/01/01/00/00/00/222_p0_master1200.jpg"

/-- C6: Pixiv discovery derives the canonical URI by the suffix
substitution (`_square<digits>.`/`_custom<digits>.` → `_master1200.`)
and strips the `/c/<WxH>/` resize segment — in particular the spec's
`..._p0_square1200.jpg` example resolves to `..._p0_master1200.jpg` —
records the derived URI on the handle on admission, and acquisition for
a handle whose resolved source is on the hostile host attempts the
offscreen relay path first: when the relay succeeds the direct draw is
never attempted, and when it fails the direct draw is attempted only
afterwards. -/
theorem pixiv_canonicalization_and_relay_first
    (img : Img) (dsP : Option String) (currentSrc src : String)
    (nw w nh h : Nat) (offR : Option MsgResponse) (dirR : Option String)
    (bgR : Option MsgResponse) (bgD : Option String) (d : String)
    (himg1 : strIncludes (pixivPickSrc img) "pximg.net" = true)
    (himg2 : 200 < jsOrNat img.naturalWidth img.width)
    (himg3 : 200 < jsOrNat img.naturalHeight img.height)
    (hsrc : strIncludes (effSrc dsP currentSrc src) "pximg.net" = true)
    (hw : 200 ≤ jsOrNat nw w) (hh : 200 ≤ jsOrNat nh h)
    (hoff : msgOkDataUrl offR = some d) :
    pixivOriginalSrc pixivSquareExampleSrc = pixivSquareExpected
    ∧ pixivOriginalSrc pixivCustomExampleSrc = pixivCustomExpected
    ∧ pixivDiscoveryAdmit img = some (pixivOriginalSrc (pixivPickSrc img))
    ∧ extractImageDataChome false false dsP currentSrc src nw w nh h
        offR dirR bgR bgD = ([Strategy.offscreen], some d)
    ∧ (extractImageDataChome false false dsP currentSrc src nw w nh h
        none dirR bgR bgD).1 = [Strategy.offscreen, Strategy.direct] := by
  have hs1 : effSrc dsP currentSrc src ≠ "" :=
    includes_pximg_ne_empty _ hsrc
  have hs2 : effSrc dsP currentSrc src ≠ "about:blank" :=
    includes_pximg_ne_about_blank _ hsrc
  have hsz : ¬ (jsOrNat nw w < 200 ∨ jsOrNat nh h < 200) := by omega
  have hp1 : pixivPickSrc img ≠ "" := includes_pximg_ne_empty _ himg1
  refine ⟨by decide, by decide, ?_, ?_, ?_⟩
  · simp only [pixivDiscoveryAdmit]
    rw [if_neg, if_pos ⟨himg2, himg3⟩]
    simp [hp1, himg1]
  · simp [extractImageDataChome, hs1, hs2, hsz, hsrc, hoff]
  · simp [extractImageDataChome, hs1, hs2, hsz, hsrc, msgOkDataUrl]

/-- A concrete Pixiv image for the C6 witness. -/
def pixivWitnessImg : Img :=
  { naturalWidth := 0, naturalHeight := 0, width := 1200, height := 1200,
    complete := true, src := pixivSquareExampleSrc, currentSrc := "",
    dataSrc := none, srcset := none }

/-- Witness for C6 at a concrete handle, source and oracle results. -/
theorem pixiv_canonicalization_and_relay_first_witness :
    pixivOriginalSrc pixivSquareExampleSrc = pixivSquareExpected
    ∧ pixivOriginalSrc pixivCustomExampleSrc = pixivCustomExpected
    ∧ pixivDiscoveryAdmit pixivWitnessImg
        = some (pixivOriginalSrc (pixivPickSrc pixivWitnessImg))
    ∧ extractImageDataChome false false (some pixivSquareExpected) "" ""
        1200 1200 1600 1600 (some ⟨true, some "data:image/png;base64,C"⟩)
        none none none
        = ([Strategy.offscreen], some "data:image/png;base64,C")
    ∧ (extractImageDataChome false false (some pixivSquareExpected) "" ""
        1200 1200 1600 1600 none none none none).1
        = [Strategy.offscreen, Strategy.direct] :=
  pixiv_canonicalization_and_relay_first pixivWitnessImg
    (some pixivSquareExpected) "" "" 1200 1200 1600 1600
    (some ⟨true, some "data:image/png;base64,C"⟩) none none none
    "data:image/png;base64,C"
    (by decide) (by decide) (by decide) (by decide) (by decide) (by decide)
    (by decide)

/- ### C9 — the 200 pixel size floor -/

/-- An image whose *natural* dimensions are zero (not loaded or broken)
but whose layout dimensions are 300×300. -/
def zeroNaturalImg : Img :=
  { naturalWidth := 0, naturalHeight := 0, width := 300, height := 300,
    complete := true, src := "https://i.pximg.net/img-original/img/1/2_p0.jpg",
    currentSrc := "", dataSrc := none, srcset := none }

/-- C9 counterexample: an image whose natural width and height (both 0)
do not exceed 200 pixels is nevertheless admitted by the site-specific
discovery path and by the legacy generic scan, because both fall back to
the layout size (`naturalWidth || width`) — so "neither discovery
protocol ever admits it" is false as stated. -/
theorem zero_natural_size_admitted :
    pixivDiscoveryAdmit zeroNaturalImg
      = some "https://i.pximg.net/img-original/img/1/2_p0.jpg"
    ∧ legacyQueueAllAdmit true zeroNaturalImg = true
    ∧ zeroNaturalImg.naturalWidth ≤ 200
    ∧ zeroNaturalImg.naturalHeight ≤ 200 := by decide

/-- C9 amended: for every image with *non-zero* natural dimensions (in
particular any loaded 150×150 image), if either natural dimension is at
most 200 then no discovery path admits it: not the generic
`handleNewImage` gate, not `queueAllImages`, not the Pixiv discovery
path, and not the legacy scan — regardless of layout size.  (An image
whose natural size reads as zero can still be admitted through the
layout-size fallback, as the counterexample shows.) -/
theorem size_floor_never_admits (img : Img)
    (hw : 0 < img.naturalWidth) (hh : 0 < img.naturalHeight)
    (hsmall : img.naturalWidth ≤ 200 ∨ img.naturalHeight ≤ 200) :
    handleNewImageGenericAdmit img = false
    ∧ queueAllImagesAdmit img = false
    ∧ pixivDiscoveryAdmit img = none
    ∧ ∀ b, legacyQueueAllAdmit b img = false := by
  have e1 : jsOrNat img.naturalWidth img.width = img.naturalWidth := by
    simp [jsOrNat]
    omega
  have e2 : jsOrNat img.naturalHeight img.height = img.naturalHeight := by
    simp [jsOrNat]
    omega
  refine ⟨?_, ?_, ?_, ?_⟩
  · simp only [handleNewImageGenericAdmit, Bool.and_eq_false_iff,
      decide_eq_false_iff_not, not_lt]
    omega
  · simp only [queueAllImagesAdmit, Bool.and_eq_false_iff,
      decide_eq_false_iff_not, not_lt]
    omega
  · simp only [pixivDiscoveryAdmit]
    split
    · rfl
    · rw [if_neg]
      rw [e1, e2]
      omega
  · intro b
    simp only [legacyQueueAllAdmit]
    split
    · rfl
    · simp only [Bool.and_eq_false_iff, decide_eq_false_iff_not, not_lt,
        e1, e2]
      omega

/-- A loaded 150×150 image (the spec's scenario 4). -/
def img150 : Img :=
  { naturalWidth := 150, naturalHeight := 150, width := 150, height := 150,
    complete := true, src := "https://example.com/icon.png",
    currentSrc := "", dataSrc := none, srcset := none }

/-- Witness for the amended C9 theorem: the 150×150 image is rejected by
every discovery path. -/
theorem size_floor_never_admits_witness :
    (0 < img150.naturalWidth ∧ 0 < img150.naturalHeight
      ∧ (img150.naturalWidth ≤ 200 ∨ img150.naturalHeight ≤ 200))
    ∧ (handleNewImageGenericAdmit img150 = false
      ∧ queueAllImagesAdmit img150 = false
      ∧ pixivDiscoveryAdmit img150 = none
      ∧ ∀ b, legacyQueueAllAdmit b img150 = false) :=
  ⟨⟨by decide, by decide, by decide⟩,
    size_floor_never_admits img150 (by decide) (by decide) (by decide)⟩

/- ### C10 — overlay records the original once -/

/-- An element whose pre-overlay source is the empty string. -/
def emptySrcElem : Elem := ⟨"", none, none, none, 0⟩

/-- C10 counterexample: for an element whose pre-overlay source is
empty, `dataset.original` is set to `""`, which is falsy, so a second
overlay pass re-enters the guarded block: it overwrites
`dataset.original` with the first overlay's data URL (losing the
pre-overlay source) and registers the click listener a second time —
"records the pre-overlay source ... and registers the click-to-toggle
listener at most once" is false as stated. -/
theorem overlay_rerecords_on_empty_source :
    (overlayPass "d2" (overlayPass "d1" emptySrcElem)).listeners = 2
    ∧ (overlayPass "d2" (overlayPass "d1" emptySrcElem)).original = some "d1"
    ∧ emptySrcElem.src = "" := by decide

/-- Auxiliary invariant: once `dataset.original` holds a non-empty
value and one listener is registered, further overlay passes only update
`translated`, `showing` and the displayed source. -/
theorem overlay_foldl_invariant (v : String) (hv : v ≠ "") :
    ∀ (ds : List String) (a : Elem),
      a.original = some v → a.listeners = 1 →
      a.showing = some "translated" →
      (ds.foldl (fun b x => overlayPass x b) a).original = some v
      ∧ (ds.foldl (fun b x => overlayPass x b) a).listeners = 1
      ∧ (ds.foldl (fun b x => overlayPass x b) a).showing
          = some "translated" := by
  intro ds
  induction ds with
  | nil =>
    intro a h1 h2 h3
    exact ⟨h1, h2, h3⟩
  | cons x xs ih =>
    intro a h1 h2 h3
    have hstep : (overlayPass x a).original = some v
        ∧ (overlayPass x a).listeners = 1
        ∧ (overlayPass x a).showing = some "translated" := by
      simp [overlayPass, datasetFalsy, h1, hv, h2]
    simpa using ih (overlayPass x a) hstep.1 hstep.2.1 hstep.2.2

/-- C10 amended: for an element with a *non-empty* pre-overlay source
(and no prior overlay state), any sequence of overlay passes records the
pre-overlay source in `dataset.original` exactly at the first pass and
registers exactly one click listener; every later pass updates only
`dataset.translated`, `dataset.showing` and the displayed source; and a
click while the translation is showing restores exactly the source
recorded at the first overlay.  (An element whose pre-overlay source is
empty defeats the falsiness guard, as the counterexample shows.) -/
theorem overlay_records_once (e : Elem) (d : String) (ds : List String)
    (h0 : e.original = none) (hl : e.listeners = 0) (hs : e.src ≠ "") :
    (ds.foldl (fun b x => overlayPass x b) (overlayPass d e)).original
      = some e.src
    ∧ (ds.foldl (fun b x => overlayPass x b) (overlayPass d e)).listeners = 1
    ∧ (ds.foldl (fun b x => overlayPass x b) (overlayPass d e)).showing
        = some "translated"
    ∧ clickToggle (ds.foldl (fun b x => overlayPass x b) (overlayPass d e))
        = { ds.foldl (fun b x => overlayPass x b) (overlayPass d e) with
              src := e.src, showing := some "original" } := by
  have hfirst : (overlayPass d e).original = some e.src
      ∧ (overlayPass d e).listeners = 1
      ∧ (overlayPass d e).showing = some "translated" := by
    simp [overlayPass, datasetFalsy, h0, hl]
  obtain ⟨g1, g2, g3⟩ :=
    overlay_foldl_invariant e.src hs ds (overlayPass d e)
      hfirst.1 hfirst.2.1 hfirst.2.2
  refine ⟨g1, g2, g3, ?_⟩
  simp only [clickToggle, g3, if_pos]
  rw [g1]
  rfl

/-- Witness for the amended C10 theorem at a concrete element and two
overlay passes. -/
theorem overlay_records_once_witness :
    ((⟨"orig.png", none, none, none, 0⟩ : Elem).original = none
      ∧ (⟨"orig.png", none, none, none, 0⟩ : Elem).listeners = 0
      ∧ (⟨"orig.png", none, none, none, 0⟩ : Elem).src ≠ "")
    ∧ ((["t2"].foldl (fun b x => overlayPass x b)
          (overlayPass "t1" ⟨"orig.png", none, none, none, 0⟩)).original
        = some (⟨"orig.png", none, none, none, 0⟩ : Elem).src
      ∧ (["t2"].foldl (fun b x => overlayPass x b)
          (overlayPass "t1" ⟨"orig.png", none, none, none, 0⟩)).listeners = 1
      ∧ (["t2"].foldl (fun b x => overlayPass x b)
          (overlayPass "t1" ⟨"orig.png", none, none, none, 0⟩)).showing
          = some "translated"
      ∧ clickToggle (["t2"].foldl (fun b x => overlayPass x b)
          (overlayPass "t1" ⟨"orig.png", none, none, none, 0⟩))
          = { ["t2"].foldl (fun b x => overlayPass x b)
                (overlayPass "t1" ⟨"orig.png", none, none, none, 0⟩) with
                src := (⟨"orig.png", none, none, none, 0⟩ : Elem).src,
                showing := some "original" }) :=
  ⟨⟨rfl, rfl, by decide⟩,
    overlay_records_once ⟨"orig.png", none, none, none, 0⟩ "t1" ["t2"]
      rfl rfl (by decide)⟩

/- ### Invariants of the interleaving model -/

@[simp] theorem setPhase_observed (s : MXState) (t : Nat) (p : Phase) :
    (setPhase s t p).observed = s.observed := rfl

@[simp] theorem setPhase_queue (s : MXState) (t : Nat) (p : Phase) :
    (setPhase s t p).queue = s.queue := rfl

@[simp] theorem setPhase_processed (s : MXState) (t : Nat) (p : Phase) :
    (setPhase s t p).processed = s.processed := rfl

@[simp] theorem setPhase_admitted (s : MXState) (t : Nat) (p : Phase) :
    (setPhase s t p).admitted = s.admitted := rfl

@[simp] theorem setPhase_isProcessing (s : MXState) (t : Nat) (p : Phase) :
    (setPhase s t p).isProcessing = s.isProcessing := rfl

@[simp] theorem setPhase_pageChanging (s : MXState) (t : Nat) (p : Phase) :
    (setPhase s t p).pageChanging = s.pageChanging := rfl

@[simp] theorem setPhase_observerConnected (s : MXState) (t : Nat) (p : Phase) :
    (setPhase s t p).observerConnected = s.observerConnected := rfl

theorem setPhase_phase (s : MXState) (t : Nat) (p : Phase) (u : Nat) :
    (setPhase s t p).phase u = if u = t then p else s.phase u := rfl

/-- At most one invocation holds the drain (`isProcessing` truthfully
reflects it): when the flag is down no invocation is active, and any two
active invocations coincide. -/
def ActiveUnique (s : MXState) : Prop :=
  (s.isProcessing = false → ∀ t, isActive (s.phase t) = false)
  ∧ ∀ t u, isActive (s.phase t) = true → isActive (s.phase u) = true → t = u

/-- `ActiveUnique` depends only on the phase assignment and the flag. -/
theorem activeUnique_congr {s s' : MXState} (h : ActiveUnique s)
    (hph : ∀ t, s'.phase t = s.phase t)
    (hip : s'.isProcessing = s.isProcessing) : ActiveUnique s' := by
  constructor
  · intro hf t
    rw [hph]
    exact h.1 (hip ▸ hf) t
  · intro a b ha hb
    rw [hph] at ha hb
    exact h.2 a b ha hb

/-- Setting an inactive phase preserves `ActiveUnique`. -/
theorem activeUnique_setPhase {s : MXState} (h : ActiveUnique s) (t : Nat)
    {p : Phase} (hp : isActive p = false) : ActiveUnique (setPhase s t p) := by
  constructor
  · intro hf u
    rw [setPhase_phase]
    by_cases hu : u = t
    · rw [if_pos hu]
      exact hp
    · rw [if_neg hu]
      exact h.1 hf u
  · intro a b ha hb
    rw [setPhase_phase] at ha hb
    by_cases hat : a = t
    · rw [if_pos hat] at ha
      rw [hp] at ha
      exact absurd ha (by simp)
    · rw [if_neg hat] at ha
      by_cases hbt : b = t
      · rw [if_pos hbt] at hb
        rw [hp] at hb
        exact absurd hb (by simp)
      · rw [if_neg hbt] at hb
        exact h.2 a b ha hb

/-- Every step of the model preserves `ActiveUnique`: the drain is never
held by two invocations, because `processQueue` checks and sets
`isProcessing` in one synchronous segment. -/
theorem activeUnique_step (env : MXEnv) (st : MXStep) {s : MXState}
    (h : ActiveUnique s) : ActiveUnique (mxStep env s st) := by
  cases st with
  | hniCheck t =>
    simp only [mxStep]
    split
    · split
      · exact activeUnique_setPhase h t rfl
      · exact activeUnique_setPhase h t rfl
    · exact h
  | hniAdmit t =>
    simp only [mxStep]
    split
    · unfold admitEffect
      split
      · exact activeUnique_congr (activeUnique_setPhase h t (p := Phase.adDone) rfl)
          (fun u => rfl) rfl
      · exact activeUnique_setPhase h t rfl
    · exact h
  | hniAtomic t =>
    simp only [mxStep]
    split
    · split
      · exact activeUnique_setPhase h t rfl
      · unfold admitEffect
        split
        · refine activeUnique_congr (activeUnique_setPhase h t (p := Phase.adDone) rfl)
            ?_ rfl
          intro u
          by_cases hu : u = t <;> simp [setPhase, hu]
        · refine activeUnique_congr (activeUnique_setPhase h t (p := Phase.adDone) rfl)
            ?_ rfl
          intro u
          by_cases hu : u = t <;> simp [setPhase, hu]
    · exact h
  | pqStart t =>
    simp only [mxStep]
    split
    · split
      · exact activeUnique_setPhase h t rfl
      · rename_i hcond
        have hip : s.isProcessing = false := by
          rcases Bool.eq_false_or_eq_true s.isProcessing with hb | hb
          · exact absurd (Or.inl hb) hcond
          · exact hb
        constructor
        · intro hf _
          exact absurd hf (by simp)
        · intro a b ha hb
          have hall : ∀ u,
              isActive ((setPhase s t Phase.inLoop).phase u) = true → u = t := by
            intro u hu
            by_cases hut : u = t
            · exact hut
            · rw [setPhase_phase, if_neg hut] at hu
              rw [h.1 hip u] at hu
              exact absurd hu (by simp)
          rw [hall a ha, hall b hb]
    · exact h
  | pqPop t =>
    simp only [mxStep]
    split
    · rename_i hploop
      have hact_t : isActive (s.phase t) = true := by rw [hploop]; rfl
      have hinactive_ne : ∀ u, u ≠ t → isActive (s.phase u) = false := by
        intro u hu
        rcases Bool.eq_false_or_eq_true (isActive (s.phase u)) with hb | hb
        · exact absurd (h.2 u t hb hact_t) hu
        · exact hb
      split
      · constructor
        · intro _ u
          rw [setPhase_phase]
          by_cases hu : u = t
          · rw [if_pos hu]
            rfl
          · rw [if_neg hu]
            exact hinactive_ne u hu
        · intro a b ha hb
          exfalso
          rw [setPhase_phase] at ha
          by_cases hat : a = t
          · rw [if_pos hat] at ha
            exact absurd ha (by simp [isActive])
          · rw [if_neg hat] at ha
            rw [hinactive_ne a hat] at ha
            exact absurd ha (by simp)
      · split
        · constructor
          · intro _ u
            rw [setPhase_phase]
            by_cases hu : u = t
            · rw [if_pos hu]
              rfl
            · rw [if_neg hu]
              exact hinactive_ne u hu
          · intro a b ha hb
            exfalso
            rw [setPhase_phase] at ha
            by_cases hat : a = t
            · rw [if_pos hat] at ha
              exact absurd ha (by simp [isActive])
            · rw [if_neg hat] at ha
              rw [hinactive_ne a hat] at ha
              exact absurd ha (by simp)
        · split
          · exact activeUnique_congr h (fun u => rfl) rfl
          · rename_i x e rest heq hpc hmem
            constructor
            · intro hf _
              exfalso
              have := h.1 hf t
              rw [hploop] at this
              exact absurd this (by simp [isActive])
            · intro a b ha hb
              have hall : ∀ u,
                  isActive ((setPhase s t (Phase.inFlight e)).phase u) = true →
                    u = t := by
                intro u hu
                by_cases hut : u = t
                · exact hut
                · rw [setPhase_phase, if_neg hut] at hu
                  rw [hinactive_ne u hut] at hu
                  exact absurd hu (by simp)
              rw [hall a ha, hall b hb]
    · exact h
  | pqFinish t =>
    simp only [mxStep]
    split
    · rename_i hfl
      have hact_t : isActive (s.phase t) = true := by
        revert hfl
        cases s.phase t <;> simp [isInFlight, isActive]
      constructor
      · intro hf _
        exact absurd (h.1 hf t) (by rw [hact_t]; simp)
      · intro a b ha hb
        have hall : ∀ u,
            isActive ((setPhase s t Phase.inLoop).phase u) = true → u = t := by
          intro u hu
          by_cases hut : u = t
          · exact hut
          · rw [setPhase_phase, if_neg hut] at hu
            exact h.2 u t hu hact_t
        rw [hall a ha, hall b hb]
    · exact h
  | trip =>
    exact activeUnique_congr h (fun u => rfl) rfl

/-- FIFO and idempotence invariant: the processed trace followed by the
pending queue is a sublist of the admission trace (items are consumed
from the head, in admission order), and the processed trace has no
duplicates (an element starts processing at most once). -/
def QueueInv (s : MXState) : Prop :=
  (s.processed ++ s.queue).Sublist s.admitted ∧ s.processed.Nodup

/-- Every step preserves `QueueInv`. -/
theorem queueInv_step (env : MXEnv) (st : MXStep) {s : MXState}
    (h : QueueInv s) : QueueInv (mxStep env s st) := by
  obtain ⟨hfifo, hnodup⟩ := h
  cases st with
  | hniCheck t =>
    simp only [mxStep]
    split
    · split
      · exact ⟨hfifo, hnodup⟩
      · exact ⟨hfifo, hnodup⟩
    · exact ⟨hfifo, hnodup⟩
  | hniAdmit t =>
    simp only [mxStep]
    split
    · unfold admitEffect
      split
      · refine ⟨?_, hnodup⟩
        have := List.Sublist.append hfifo
          (List.Sublist.refl [env.elt t])
        simpa using this
      · exact ⟨hfifo, hnodup⟩
    · exact ⟨hfifo, hnodup⟩
  | hniAtomic t =>
    simp only [mxStep]
    split
    · split
      · exact ⟨hfifo, hnodup⟩
      · unfold admitEffect
        split
        · refine ⟨?_, hnodup⟩
          have := List.Sublist.append hfifo
            (List.Sublist.refl [env.elt t])
          simpa using this
        · exact ⟨hfifo, hnodup⟩
    · exact ⟨hfifo, hnodup⟩
  | pqStart t =>
    simp only [mxStep]
    split
    · split
      · exact ⟨hfifo, hnodup⟩
      · exact ⟨hfifo, hnodup⟩
    · exact ⟨hfifo, hnodup⟩
  | pqPop t =>
    simp only [mxStep]
    split
    · split
      · exact ⟨hfifo, hnodup⟩
      · rename_i x e rest heq
        have hfifo' : (s.processed ++ e :: rest).Sublist s.admitted := by
          rw [heq] at hfifo
          exact hfifo
        split
        · exact ⟨hfifo, hnodup⟩
        · split
          · refine ⟨?_, hnodup⟩
            exact List.Sublist.trans
              (List.Sublist.append_left (List.sublist_cons_self e rest)
                s.processed) hfifo'
          · rename_i hmem
            refine ⟨?_, ?_⟩
            · have heqp : s.processed ++ [e] ++ rest = s.processed ++ e :: rest := by
                simp
              simpa [heqp] using hfifo'
            · refine List.Nodup.append hnodup (List.nodup_singleton e) ?_
              intro a hap hae
              rw [List.mem_singleton] at hae
              subst hae
              exact hmem hap
    · exact ⟨hfifo, hnodup⟩
  | pqFinish t =>
    simp only [mxStep]
    split
    · exact ⟨hfifo, hnodup⟩
    · exact ⟨hfifo, hnodup⟩
  | trip =>
    simp only [mxStep]
    refine ⟨?_, hnodup⟩
    have h1 : s.processed.Sublist (s.processed ++ s.queue) :=
      List.sublist_append_left s.processed s.queue
    simpa using h1.trans hfifo

/-- Invariant for serialized admissions: no invocation is parked between
its guard and its admission, every queued element is observed, and no
element occurs twice in the queue. -/
def SerialInv (s : MXState) : Prop :=
  (∀ t, s.phase t ≠ Phase.checked)
  ∧ (∀ e, e ∈ s.queue → e ∈ s.observed)
  ∧ ∀ e, s.queue.count e ≤ 1

/-- An element is in its own `pushSet`. -/
theorem mem_pushSet_self (l : List Nat) (e : Nat) : e ∈ pushSet l e := by
  unfold pushSet
  split
  · assumption
  · simp

/-- `pushSet` preserves membership. -/
theorem mem_pushSet_of_mem {l : List Nat} {a : Nat} (h : a ∈ l) (e : Nat) :
    a ∈ pushSet l e := by
  unfold pushSet
  split
  · exact h
  · simp [h]

/-- Every step other than a split guard step (`hniCheck`) preserves
`SerialInv`. -/
theorem serialInv_step (env : MXEnv) (st : MXStep)
    (hst : isCheckStep st = false) {s : MXState} (h : SerialInv s) :
    SerialInv (mxStep env s st) := by
  obtain ⟨hchk, hsub, hcnt⟩ := h
  cases st with
  | hniCheck t => exact absurd hst (by simp [isCheckStep])
  | hniAdmit t =>
    simp only [mxStep]
    rw [if_neg (hchk t)]
    exact ⟨hchk, hsub, hcnt⟩
  | hniAtomic t =>
    simp only [mxStep]
    split
    · split
      · refine ⟨?_, hsub, hcnt⟩
        intro u
        rw [setPhase_phase]
        by_cases hu : u = t
        · rw [if_pos hu]
          simp
        · rw [if_neg hu]
          exact hchk u
      · rename_i hnm
        unfold admitEffect
        have hobs : env.elt t ∉ s.observed := fun hx => hnm (Or.inl hx)
        split
        · refine ⟨?_, ?_, ?_⟩
          · intro u
            simp only [setPhase_phase]
            by_cases hu : u = t <;> simp [hu, hchk u]
          · intro a ha
            simp only [List.mem_append, List.mem_singleton] at ha
            rcases ha with ha | ha
            · exact mem_pushSet_of_mem (hsub a ha) (env.elt t)
            · subst ha
              exact mem_pushSet_self s.observed (env.elt t)
          · intro a
            have hq0 : s.queue.count (env.elt t) = 0 :=
              List.count_eq_zero.mpr (fun hx => hobs (hsub _ hx))
            by_cases ha : a = env.elt t
            · subst ha
              simp [List.count_append, hq0, List.count_singleton']
            · have : ¬ (env.elt t = a) := fun hx => ha hx.symm
              simp [List.count_append, List.count_singleton', this]
              exact hcnt a
        · refine ⟨?_, hsub, hcnt⟩
          intro u
          simp only [setPhase_phase]
          by_cases hu : u = t <;> simp [hu, hchk u]
    · exact ⟨hchk, hsub, hcnt⟩
  | pqStart t =>
    simp only [mxStep]
    split
    · split
      · refine ⟨?_, hsub, hcnt⟩
        intro u
        simp only [setPhase_phase]
        by_cases hu : u = t <;> simp [hu, hchk u]
      · refine ⟨?_, hsub, hcnt⟩
        intro u
        simp only [setPhase_phase]
        by_cases hu : u = t <;> simp [hu, hchk u]
    · exact ⟨hchk, hsub, hcnt⟩
  | pqPop t =>
    simp only [mxStep]
    split
    · split
      · refine ⟨?_, hsub, hcnt⟩
        intro u
        simp only [setPhase_phase]
        by_cases hu : u = t <;> simp [hu, hchk u]
      · rename_i x e rest heq
        have hsub' : ∀ a, a ∈ rest → a ∈ s.observed := by
          intro a ha
          exact hsub a (by rw [heq]; exact List.mem_cons_of_mem e ha)
        have hcnt' : ∀ a, rest.count a ≤ 1 := by
          intro a
          have := hcnt a
          rw [heq, List.count_cons] at this
          omega
        split
        · refine ⟨?_, hsub, hcnt⟩
          intro u
          simp only [setPhase_phase]
          by_cases hu : u = t <;> simp [hu, hchk u]
        · split
          · exact ⟨hchk, hsub', hcnt'⟩
          · refine ⟨?_, hsub', hcnt'⟩
            intro u
            simp only [setPhase_phase]
            by_cases hu : u = t <;> simp [hu, hchk u]
    · exact ⟨hchk, hsub, hcnt⟩
  | pqFinish t =>
    simp only [mxStep]
    split
    · refine ⟨?_, hsub, hcnt⟩
      intro u
      simp only [setPhase_phase]
      by_cases hu : u = t <;> simp [hu, hchk u]
    · exact ⟨hchk, hsub, hcnt⟩
  | trip =>
    simp only [mxStep]
    refine ⟨hchk, ?_, ?_⟩
    · intro a ha
      exact absurd ha (by simp)
    · intro a
      simp

/-- After the navigation epoch has tripped, every step leaves the
epoch tripped, starts no new item (the processed trace is frozen), and
keeps the observer disconnected. -/
theorem frozen_step (env : MXEnv) (st : MXStep) {s : MXState}
    (h : s.pageChanging = true) :
    (mxStep env s st).pageChanging = true
    ∧ (mxStep env s st).processed = s.processed
    ∧ (s.observerConnected = false →
        (mxStep env s st).observerConnected = false) := by
  cases st with
  | hniCheck t =>
    simp only [mxStep]
    split
    · split <;> exact ⟨h, rfl, fun ho => ho⟩
    · exact ⟨h, rfl, fun ho => ho⟩
  | hniAdmit t =>
    simp only [mxStep]
    split
    · unfold admitEffect
      split <;> exact ⟨h, rfl, fun ho => ho⟩
    · exact ⟨h, rfl, fun ho => ho⟩
  | hniAtomic t =>
    simp only [mxStep]
    split
    · split
      · exact ⟨h, rfl, fun ho => ho⟩
      · unfold admitEffect
        split <;> exact ⟨h, rfl, fun ho => ho⟩
    · exact ⟨h, rfl, fun ho => ho⟩
  | pqStart t =>
    simp only [mxStep]
    split
    · split <;> exact ⟨h, rfl, fun ho => ho⟩
    · exact ⟨h, rfl, fun ho => ho⟩
  | pqPop t =>
    simp only [mxStep]
    split
    · split
      · exact ⟨h, rfl, fun ho => ho⟩
      · simp only [h, if_true]
        exact ⟨h, rfl, fun ho => ho⟩
    · exact ⟨h, rfl, fun ho => ho⟩
  | pqFinish t =>
    simp only [mxStep]
    split <;> exact ⟨h, rfl, fun ho => ho⟩
  | trip =>
    exact ⟨rfl, rfl, fun _ => rfl⟩

/-- Fold-preservation of a state predicate along a schedule. -/
theorem mxFold_preserve (P : MXState → Prop) (env : MXEnv)
    (hstep : ∀ s st, P s → P (mxStep env s st)) :
    ∀ (steps : List MXStep) (s : MXState), P s →
      P (steps.foldl (mxStep env) s) := by
  intro steps
  induction steps with
  | nil => intro s hs; exact hs
  | cons a l ih =>
    intro s hs
    exact ih _ (hstep s a hs)

/-- Fold-preservation along a schedule whose steps all satisfy a side
condition. -/
theorem mxFold_preserve_guarded (P : MXState → Prop) (Q : MXStep → Prop)
    (env : MXEnv)
    (hstep : ∀ s st, Q st → P s → P (mxStep env s st)) :
    ∀ (steps : List MXStep) (s : MXState), (∀ st ∈ steps, Q st) → P s →
      P (steps.foldl (mxStep env) s) := by
  intro steps
  induction steps with
  | nil => intro s _ hs; exact hs
  | cons a l ih =>
    intro s hq hs
    exact ih _ (fun st hst => hq st (List.mem_cons_of_mem a hst))
      (hstep s a (hq a (List.mem_cons_self a l)) hs)

/-- Splitting a run at a schedule boundary. -/
theorem mxRun_append (env : MXEnv) (roles : Nat → Phase)
    (a b : List MXStep) :
    mxRun env roles (a ++ b) = b.foldl (mxStep env) (mxRun env roles a) := by
  simp [mxRun, List.foldl_append]

/- ### C4 — strictly sequential drain -/

/-- C4: from a fresh page instance (every invocation starting at `idle`
or `notStarted`), after any interleaved schedule at most one invocation
is mid-drain — so no two items are mid-pipeline and no two OCR
submissions are ever in flight concurrently, enforced by the
`isProcessing` check-and-set — and the processed trace followed by the
pending queue is a sublist of the admission trace: items are taken from
the queue head in FIFO admission order. -/
theorem queue_drain_strictly_sequential (env : MXEnv) (roles : Nat → Phase)
    (steps : List MXStep)
    (hroles : ∀ t, roles t = Phase.idle ∨ roles t = Phase.notStarted) :
    (∀ t u, isActive ((mxRun env roles steps).phase t) = true →
        isActive ((mxRun env roles steps).phase u) = true → t = u)
    ∧ ((mxRun env roles steps).processed ++
        (mxRun env roles steps).queue).Sublist
        (mxRun env roles steps).admitted := by
  have hinit : ActiveUnique (mxInit roles) := by
    constructor
    · intro _ t
      rcases hroles t with hr | hr <;> simp [mxInit, hr, isActive]
    · intro a b ha _
      exfalso
      rcases hroles a with hr | hr <;>
        simp [mxInit, hr, isActive] at ha
  have h1 : ActiveUnique (mxRun env roles steps) :=
    mxFold_preserve ActiveUnique env
      (fun s st hs => activeUnique_step env st hs) steps (mxInit roles) hinit
  have h2 : QueueInv (mxRun env roles steps) :=
    mxFold_preserve QueueInv env
      (fun s st hs => queueInv_step env st hs) steps (mxInit roles)
      ⟨by simp [mxInit], by simp [mxInit]⟩
  exact ⟨h1.2, h2.1⟩

/-- Role assignment for the drain witnesses: invocation 0 is an
admission, all others are drain invocations. -/
def mxWitRoles : Nat → Phase :=
  fun t => if t = 0 then Phase.idle else Phase.notStarted

/-- Environment for the drain witnesses: one 500×500 image element. -/
def mxWitEnv : MXEnv := ⟨fun _ => 7, fun _ => true⟩

/-- A representative schedule: admit, start the drain, pop, finish. -/
def mxWitSteps : List MXStep :=
  [MXStep.hniAtomic 0, MXStep.pqStart 1, MXStep.pqPop 1, MXStep.pqFinish 1]

/-- Witness for C4 at a concrete environment and schedule. -/
theorem queue_drain_strictly_sequential_witness :
    (∀ t, mxWitRoles t = Phase.idle ∨ mxWitRoles t = Phase.notStarted)
    ∧ ((∀ t u,
          isActive ((mxRun mxWitEnv mxWitRoles mxWitSteps).phase t) = true →
          isActive ((mxRun mxWitEnv mxWitRoles mxWitSteps).phase u) = true →
          t = u)
      ∧ ((mxRun mxWitEnv mxWitRoles mxWitSteps).processed ++
          (mxRun mxWitEnv mxWitRoles mxWitSteps).queue).Sublist
          (mxRun mxWitEnv mxWitRoles mxWitSteps).admitted) :=
  ⟨fun t => by by_cases h : t = 0 <;> simp [mxWitRoles, h],
    queue_drain_strictly_sequential mxWitEnv mxWitRoles mxWitSteps
      (fun t => by by_cases h : t = 0 <;> simp [mxWitRoles, h])⟩

/- ### C3 — admission idempotence -/

/-- Environment for the C3 counterexample: two discovery observations of
the same 500×500 element. -/
def dupEnv : MXEnv := ⟨fun _ => 7, fun _ => true⟩

/-- Both invocations are admissions. -/
def dupRoles : Nat → Phase := fun _ => Phase.idle

/-- C3 counterexample: two overlapping `handleNewImage` invocations for
the same element — both pass the duplicate guard before either reaches
its admission, which is possible because the load wait suspends between
guard and admission — append the element to the queue twice.  The claim
"it is appended to the processing queue at most once" is false under
re-entrant admission. -/
theorem overlapping_admissions_duplicate_queue :
    (mxRun dupEnv dupRoles
      [MXStep.hniCheck 0, MXStep.hniCheck 1,
        MXStep.hniAdmit 0, MXStep.hniAdmit 1]).queue = [7, 7] := by decide

/-- C3 amended: under arbitrary interleaving an element enters the
processed set at most once and therefore at most one OCR submission ever
happens for it (the processed-set guard and insertion are one
synchronous segment); and when no admission is split across the
load-wait suspension (schedules without `hniCheck`, i.e. guard and
admission back-to-back), an element is also appended to the queue at
most once. -/
theorem admission_and_processing_at_most_once (env : MXEnv)
    (roles : Nat → Phase) (steps : List MXStep)
    (hroles : ∀ t, roles t = Phase.idle ∨ roles t = Phase.notStarted) :
    (mxRun env roles steps).processed.Nodup
    ∧ ((∀ st ∈ steps, isCheckStep st = false) →
        ∀ e, (mxRun env roles steps).queue.count e ≤ 1) := by
  constructor
  · have h2 : QueueInv (mxRun env roles steps) :=
      mxFold_preserve QueueInv env
        (fun s st hs => queueInv_step env st hs) steps (mxInit roles)
        ⟨by simp [mxInit], by simp [mxInit]⟩
    exact h2.2
  · intro hq e
    have hinit : SerialInv (mxInit roles) := by
      refine ⟨?_, ?_, ?_⟩
      · intro t
        rcases hroles t with hr | hr <;> simp [mxInit, hr]
      · intro a ha
        exact absurd ha (by simp [mxInit])
      · intro a
        simp [mxInit]
    have h3 : SerialInv (mxRun env roles steps) :=
      mxFold_preserve_guarded SerialInv (fun st => isCheckStep st = false)
        env (fun s st hst hs => serialInv_step env st hst hs)
        steps (mxInit roles) hq hinit
    exact h3.2.2 e

/-- Witness for the amended C3 theorem on an atomic-admission schedule
that observes the same element twice. -/
theorem admission_and_processing_at_most_once_witness :
    ((∀ t, dupRoles t = Phase.idle ∨ dupRoles t = Phase.notStarted)
      ∧ (∀ st ∈ [MXStep.hniAtomic 0, MXStep.hniAtomic 1, MXStep.pqStart 2,
            MXStep.pqPop 2], isCheckStep st = false))
    ∧ ((mxRun dupEnv dupRoles [MXStep.hniAtomic 0, MXStep.hniAtomic 1,
          MXStep.pqStart 2, MXStep.pqPop 2]).processed.Nodup
      ∧ ((∀ st ∈ [MXStep.hniAtomic 0, MXStep.hniAtomic 1, MXStep.pqStart 2,
            MXStep.pqPop 2], isCheckStep st = false) →
          ∀ e, (mxRun dupEnv dupRoles [MXStep.hniAtomic 0, MXStep.hniAtomic 1,
            MXStep.pqStart 2, MXStep.pqPop 2]).queue.count e ≤ 1)) :=
  ⟨⟨fun t => Or.inl rfl, by decide⟩,
    admission_and_processing_at_most_once dupEnv dupRoles
      [MXStep.hniAtomic 0, MXStep.hniAtomic 1, MXStep.pqStart 2,
        MXStep.pqPop 2] (fun t => Or.inl rfl)⟩

/- ### C5 — navigation trip quiesces the pipeline -/

/-- C5: immediately after a navigation-epoch trip the pending queue is
empty, the epoch is tripped and the discovery watcher is disconnected;
in any continuation of the run no further item is ever started (the
processed trace stays exactly what it was at the trip); an item that was
in flight at any later point can still finish (its `pqFinish` step
returns its invocation to the loop); and post-trip mutation observations
(`hniCheck`/`hniAtomic`) are no-ops, so no further admissions feed the
pipeline through the watcher. -/
theorem navigation_trip_stops_pipeline (env : MXEnv) (roles : Nat → Phase)
    (s1 s2 : List MXStep) :
    (mxRun env roles (s1 ++ [MXStep.trip])).queue = []
    ∧ (mxRun env roles (s1 ++ [MXStep.trip])).pageChanging = true
    ∧ (mxRun env roles (s1 ++ [MXStep.trip])).observerConnected = false
    ∧ (mxRun env roles (s1 ++ MXStep.trip :: s2)).processed
        = (mxRun env roles (s1 ++ [MXStep.trip])).processed
    ∧ (∀ t e,
        (mxRun env roles (s1 ++ MXStep.trip :: s2)).phase t
          = Phase.inFlight e →
        (mxStep env (mxRun env roles (s1 ++ MXStep.trip :: s2))
            (MXStep.pqFinish t)).phase t = Phase.inLoop)
    ∧ ∀ t,
        mxStep env (mxRun env roles (s1 ++ MXStep.trip :: s2))
            (MXStep.hniCheck t)
          = mxRun env roles (s1 ++ MXStep.trip :: s2)
        ∧ mxStep env (mxRun env roles (s1 ++ MXStep.trip :: s2))
            (MXStep.hniAtomic t)
          = mxRun env roles (s1 ++ MXStep.trip :: s2) := by
  have hsplit1 : mxRun env roles (s1 ++ [MXStep.trip])
      = mxStep env (mxRun env roles s1) MXStep.trip := by
    rw [mxRun_append]
    rfl
  have htq : (mxRun env roles (s1 ++ [MXStep.trip])).queue = [] := by
    rw [hsplit1]
    rfl
  have htp : (mxRun env roles (s1 ++ [MXStep.trip])).pageChanging = true := by
    rw [hsplit1]
    rfl
  have hto : (mxRun env roles (s1 ++ [MXStep.trip])).observerConnected
      = false := by
    rw [hsplit1]
    rfl
  have hsplit2 : mxRun env roles (s1 ++ MXStep.trip :: s2)
      = s2.foldl (mxStep env) (mxRun env roles (s1 ++ [MXStep.trip])) := by
    have : s1 ++ MXStep.trip :: s2 = (s1 ++ [MXStep.trip]) ++ s2 := by simp
    rw [this, mxRun_append]
  have hfrozen :
      (mxRun env roles (s1 ++ MXStep.trip :: s2)).pageChanging = true
      ∧ (mxRun env roles (s1 ++ MXStep.trip :: s2)).observerConnected = false
      ∧ (mxRun env roles (s1 ++ MXStep.trip :: s2)).processed
          = (mxRun env roles (s1 ++ [MXStep.trip])).processed := by
    rw [hsplit2]
    refine mxFold_preserve
      (fun s => s.pageChanging = true ∧ s.observerConnected = false
        ∧ s.processed = (mxRun env roles (s1 ++ [MXStep.trip])).processed)
      env ?_ s2 _ ⟨htp, hto, rfl⟩
    intro s st hs
    obtain ⟨hp, ho, hpr⟩ := hs
    obtain ⟨hp', hpr', ho'⟩ := frozen_step env st hp
    exact ⟨hp', ho' ho, hpr'.trans hpr⟩
  refine ⟨htq, htp, hto, hfrozen.2.2, ?_, ?_⟩
  · intro t e hfl
    simp [mxStep, hfl, isInFlight, setPhase]
  · intro t
    constructor
    · simp only [mxStep]
      rw [if_neg]
      intro hcond
      rw [hfrozen.2.1] at hcond
      exact absurd hcond.2 (by simp)
    · simp only [mxStep]
      rw [if_neg]
      intro hcond
      rw [hfrozen.2.1] at hcond
      exact absurd hcond.2 (by simp)

/-- Witness for C5: a concrete run that admits and starts an item, trips
mid-drain, and then attempts further steps. -/
theorem navigation_trip_stops_pipeline_witness :
    (mxRun mxWitEnv mxWitRoles
        ([MXStep.hniAtomic 0, MXStep.pqStart 1, MXStep.pqPop 1]
          ++ [MXStep.trip])).queue = []
    ∧ (mxRun mxWitEnv mxWitRoles
        ([MXStep.hniAtomic 0, MXStep.pqStart 1, MXStep.pqPop 1]
          ++ [MXStep.trip])).pageChanging = true
    ∧ (mxRun mxWitEnv mxWitRoles
        ([MXStep.hniAtomic 0, MXStep.pqStart 1, MXStep.pqPop 1]
          ++ [MXStep.trip])).observerConnected = false
    ∧ (mxRun mxWitEnv mxWitRoles
        ([MXStep.hniAtomic 0, MXStep.pqStart 1, MXStep.pqPop 1]
          ++ MXStep.trip :: [MXStep.hniAtomic 2, MXStep.pqFinish 1,
            MXStep.pqPop 1])).processed
        = (mxRun mxWitEnv mxWitRoles
            ([MXStep.hniAtomic 0, MXStep.pqStart 1, MXStep.pqPop 1]
              ++ [MXStep.trip])).processed
    ∧ (∀ t e,
        (mxRun mxWitEnv mxWitRoles
            ([MXStep.hniAtomic 0, MXStep.pqStart 1, MXStep.pqPop 1]
              ++ MXStep.trip :: [MXStep.hniAtomic 2, MXStep.pqFinish 1,
                MXStep.pqPop 1])).phase t = Phase.inFlight e →
        (mxStep mxWitEnv (mxRun mxWitEnv mxWitRoles
            ([MXStep.hniAtomic 0, MXStep.pqStart 1, MXStep.pqPop 1]
              ++ MXStep.trip :: [MXStep.hniAtomic 2, MXStep.pqFinish 1,
                MXStep.pqPop 1]))
            (MXStep.pqFinish t)).phase t = Phase.inLoop)
    ∧ ∀ t,
        mxStep mxWitEnv (mxRun mxWitEnv mxWitRoles
            ([MXStep.hniAtomic 0, MXStep.pqStart 1, MXStep.pqPop 1]
              ++ MXStep.trip :: [MXStep.hniAtomic 2, MXStep.pqFinish 1,
                MXStep.pqPop 1]))
            (MXStep.hniCheck t)
          = mxRun mxWitEnv mxWitRoles
              ([MXStep.hniAtomic 0, MXStep.pqStart 1, MXStep.pqPop 1]
                ++ MXStep.trip :: [MXStep.hniAtomic 2, MXStep.pqFinish 1,
                  MXStep.pqPop 1])
        ∧ mxStep mxWitEnv (mxRun mxWitEnv mxWitRoles
            ([MXStep.hniAtomic 0, MXStep.pqStart 1, MXStep.pqPop 1]
              ++ MXStep.trip :: [MXStep.hniAtomic 2, MXStep.pqFinish 1,
                MXStep.pqPop 1]))
            (MXStep.hniAtomic t)
          = mxRun mxWitEnv mxWitRoles
              ([MXStep.hniAtomic 0, MXStep.pqStart 1, MXStep.pqPop 1]
                ++ MXStep.trip :: [MXStep.hniAtomic 2, MXStep.pqFinish 1,
                  MXStep.pqPop 1]) :=
  navigation_trip_stops_pipeline mxWitEnv mxWitRoles
    [MXStep.hniAtomic 0, MXStep.pqStart 1, MXStep.pqPop 1]
    [MXStep.hniAtomic 2, MXStep.pqFinish 1, MXStep.pqPop 1]
